import Mathlib

/-!
Shallow embedding of the alpm local-package database core: the `DbUsage`
bit-set from `src/db/mod.rs`, the local package model from
`src/db/local/package.rs` (loading, `total_size`, `validate`), and the
descriptor decode step that `Package::from_local` relies on.  Filesystem
effects are passed in explicitly: the two file reads of `from_local` arrive
as `Except` values, and `validate` receives the `stat` results as a function
from paths to metadata.
-/

namespace Alpm

/-! ## Database usage bit-set (`src/db/mod.rs`, `bitflags!` block) -/

/-- `DbUsage` bitflags over a `u32`: what a database is to be used for. -/
structure DbUsage where
  bits : Nat
deriving DecidableEq

def DbUsage.SYNC : DbUsage := ⟨0b0001⟩

def DbUsage.SEARCH : DbUsage := ⟨0b0010⟩

def DbUsage.INSTALL : DbUsage := ⟨0b0100⟩

def DbUsage.UPGRADE : DbUsage := ⟨0b1000⟩

/-- `ALL` is defined in the source as the bitwise or of the four flags. -/
def DbUsage.ALL : DbUsage :=
  ⟨DbUsage.SYNC.bits ||| DbUsage.SEARCH.bits ||| DbUsage.INSTALL.bits |||
    DbUsage.UPGRADE.bits⟩

/-- Bit-set union, as generated by the `bitflags!` macro. -/
def DbUsage.union (a b : DbUsage) : DbUsage := ⟨a.bits ||| b.bits⟩

/-- Bit-set membership test: `a.contains(b)` holds when every bit of `b` is
set in `a` (`bitflags` defines it as `a.bits & b.bits == b.bits`). -/
def DbUsage.contains (a b : DbUsage) : Bool := a.bits &&& b.bits = b.bits

/-- `impl Default for DbUsage` returns `DbUsage::ALL`. -/
def DbUsage.default : DbUsage := DbUsage.ALL

/-! ## File types and manifest entries (`src/db/local/package.rs`) -/

/-- `FileType` from `package.rs`: the classification used by validation. -/
inductive FileType
  | file
  | directory
  | symbolicLink
  | other
deriving DecidableEq

/-- The file-type classification of the external `mtree` crate, as consumed
through `Entry::file_type()`. -/
inductive MtreeFileType
  | file
  | directory
  | symbolicLink
  | blockDevice
  | characterDevice
  | fifo
  | socket
deriving DecidableEq

/-- `impl From<mtree::FileType> for FileType`: everything beyond
file/directory/symlink collapses to `Other`. -/
def FileType.fromMtree : MtreeFileType → FileType
  | MtreeFileType.file => FileType.file
  | MtreeFileType.directory => FileType.directory
  | MtreeFileType.symbolicLink => FileType.symbolicLink
  | _ => FileType.other

/-- A manifest entry as consumed from the external `mtree` reader: the code
uses only `path()`, `file_type()` and `size()` of each entry. -/
structure Entry where
  path : String
  fileType : Option MtreeFileType
  size : Option Nat
deriving DecidableEq

/-- The slice of `fs::Metadata` that `validate` reads: the live file type
(already collapsed through `impl From<fs::FileType> for FileType`) and the
byte length `md.len()`. -/
structure Metadata where
  fileType : FileType
  len : Nat
deriving DecidableEq

/-- The kind of an `io::Error`; `validate` branches only on whether the kind
is `NotFound`. -/
inductive IoErrorKind
  | notFound
  | otherKind (n : Nat)
deriving DecidableEq

/-- An `io::Error`, reduced to its kind. -/
structure IoError where
  kind : IoErrorKind
deriving DecidableEq

/-- `ValidationError` from `package.rs`: possible problems with a package. -/
inductive ValidationError
  | FileNotFound (path : String)
  | WrongType (expected actual : FileType)
  | WrongSize (expected actual : Nat)
deriving DecidableEq

/-! ## Package descriptor record (`PackageDesc` in `package.rs`) -/

/-- `Validation` from `package.rs`, with its serde rename tokens
`none`/`md5`/`sha256`/`pgp`. -/
inductive Validation
  | none
  | md5
  | sha256
  | pgp
deriving DecidableEq

/-- `Reason` from `package.rs`, with serde rename tokens `"0"`/`"1"`. -/
inductive Reason
  | Explicit
  | Depend
deriving DecidableEq

/-- `PackageDesc` from `package.rs`.  Fields mirror the struct declaration:
`base`, `license` and `reason` are `Option`; `groups`, `replaces`, `depends`,
`optional_depends` (serde name `optdepends`), `conflicts` and `provides`
carry `#[serde(default)]`; `validation` is a list without a serde default;
`description` has serde name `desc`. -/
structure PackageDesc where
  name : String
  version : String
  base : Option String
  description : String
  groups : List String
  url : String
  license : Option String
  arch : String
  packager : String
  reason : Option Reason
  validation : List Validation
  size : Nat
  replaces : List String
  depends : List String
  optional_depends : List String
  conflicts : List String
  provides : List String
deriving DecidableEq

/-! ## Descriptor format decoding

`Package::from_local` decodes the `desc` text with `alpm_desc::de::from_str`
into `PackageDesc`.  The decoder itself lives in `alpm_desc/de.rs`, which is
not part of the sources here; only its error vocabulary (`de_error.rs`) is.
The sectioning grammar below is therefore modelled from the spec, while the
field-by-field population follows the serde attributes declared on
`PackageDesc` (required fields, `Option` fields defaulting to `None`,
`#[serde(default)]` lists defaulting to empty, renames). -/

/-- `ErrorKind` from `src/alpm_desc/de_error.rs`. -/
inductive DecodeErrorKind
  | unsupported (what : String)
  | expectedBool
  | expectedByte
  | expectedUnsigned
  | expectedSigned
  | expectedFloat
  | expectedChar
  | expectedKey
  | expectedEmpty
  | custom (msg : String)
deriving DecidableEq

/-- The display strings of `ErrorKind`, from the `#[fail(display = ...)]`
attributes in `de_error.rs`. -/
def DecodeErrorKind.message : DecodeErrorKind → String
  | DecodeErrorKind.unsupported what =>
      "tried to deserialize an unsupported type/context: " ++ what
  | DecodeErrorKind.expectedBool => "expected a bool"
  | DecodeErrorKind.expectedByte => "expected a hex-encoded byte"
  | DecodeErrorKind.expectedUnsigned => "expected an unsigned integer"
  | DecodeErrorKind.expectedSigned => "expected a signed integer"
  | DecodeErrorKind.expectedFloat => "expected a float"
  | DecodeErrorKind.expectedChar => "expected a char"
  | DecodeErrorKind.expectedKey => "expected a key (`%NAME%`)"
  | DecodeErrorKind.expectedEmpty => "expected an empty string"
  | DecodeErrorKind.custom msg =>
      "the type being deserialized reported an error: " ++ msg

/-- Split a character stream into lines at `\n`, keeping empty lines (same
result as `String.splitOn "\n"`); `cur` holds the current line reversed. -/
def splitLinesGo (cur : List Char) : List Char → List String
  | [] => [String.mk cur.reverse]
  | c :: cs =>
    if c = '\n' then
      String.mk cur.reverse :: splitLinesGo [] cs
    else
      splitLinesGo (c :: cur) cs

/-- The lines of a string, split at `\n`. -/
def stringLines (s : String) : List String := splitLinesGo [] s.data

/-- Modelled from the spec: recognise a key line of the exact shape `%KEY%`
(§4.1 grammar), returning the non-empty key between the percent signs. -/
def keyOf (line : String) : Option String :=
  match line.data with
  | '%' :: rest =>
    match rest.reverse with
    | '%' :: midrev =>
      if midrev = [] then Option.none else some (String.mk midrev.reverse)
    | _ => Option.none
  | _ => Option.none

/-- Modelled from the spec: one-pass sectioniser over the lines of the text.
The state is the currently open section (`some (key, valuesSoFar)`, values
held in reverse) or `Option.none` when the next non-blank line must be a
`%KEY%` line.  Each section is a `%KEY%` line followed by one or more value
lines, terminated by a blank line or end of input (§4.1 grammar contract). -/
def parseGo : Option (String × List String) → List String →
    Option (List (String × List String))
  | Option.none, [] => some []
  | Option.none, line :: rest =>
    if line = "" then
      parseGo Option.none rest
    else
      match keyOf line with
      | some k => parseGo (some (k, [])) rest
      | Option.none => Option.none
  | some (k, vals), [] =>
    if vals = [] then Option.none else some [(k, vals.reverse)]
  | some (k, vals), line :: rest =>
    if line = "" then
      if vals = [] then
        Option.none
      else
        (parseGo Option.none rest).map (fun sects => (k, vals.reverse) :: sects)
    else
      parseGo (some (k, line :: vals)) rest

/-- Modelled from the spec: split descriptor text (already divided into
lines) into its sections, in input order. -/
def parseSections (lines : List String) : Option (List (String × List String)) :=
  parseGo Option.none lines

/-- Look up the first section with the given key; unknown keys in the input
are thereby skipped, per the spec's forward-compatibility policy. -/
def findSection (sects : List (String × List String)) (key : String) :
    Option (List String) :=
  (sects.find? (fun s => s.1 = key)).map (fun s => s.2)

/-- Decode a required string-typed field: the section must be present (else
serde raises a missing-field error through `de::Error::custom`) and hold a
single value line. -/
def decodeScalar (sects : List (String × List String)) (key field : String) :
    Except DecodeErrorKind String :=
  match findSection sects key with
  | Option.none => Except.error (DecodeErrorKind.custom ("missing field " ++ field))
  | some [v] => Except.ok v
  | some _ => Except.error (DecodeErrorKind.custom ("invalid length for field " ++ field))

/-- Decode an `Option<String>` field: serde yields `None` when the key is
absent. -/
def decodeOptScalar (sects : List (String × List String)) (key field : String) :
    Except DecodeErrorKind (Option String) :=
  match findSection sects key with
  | Option.none => Except.ok Option.none
  | some [v] => Except.ok (some v)
  | some _ => Except.error (DecodeErrorKind.custom ("invalid length for field " ++ field))

/-- Decode a `Vec<String>` field carrying `#[serde(default)]`: an absent key
yields the empty list; a present section yields its value lines in order. -/
def decodeDefaultList (sects : List (String × List String)) (key : String) :
    Except DecodeErrorKind (List String) :=
  match findSection sects key with
  | Option.none => Except.ok []
  | some vs => Except.ok vs

/-- Parse a decimal digit string into a number, failing on any non-digit. -/
def parseU64Go (acc : Nat) : List Char → Option Nat
  | [] => some acc
  | c :: cs =>
    if c.isDigit then parseU64Go (acc * 10 + (c.toNat - 48)) cs else Option.none

/-- Parse an unsigned decimal token (`str::parse::<u64>` on digits). -/
def parseU64 (s : String) : Option Nat :=
  match s.data with
  | [] => Option.none
  | cs => parseU64Go 0 cs

/-- Decode the required `u64` field (serde `deserialize_u64`; a non-numeric
token is the `ExpectedUnsigned` error of `de_error.rs`). -/
def decodeU64 (sects : List (String × List String)) (key field : String) :
    Except DecodeErrorKind Nat :=
  match findSection sects key with
  | Option.none => Except.error (DecodeErrorKind.custom ("missing field " ++ field))
  | some [v] =>
    match parseU64 v with
    | some n => Except.ok n
    | Option.none => Except.error DecodeErrorKind.expectedUnsigned
  | some _ => Except.error (DecodeErrorKind.custom ("invalid length for field " ++ field))

/-- Unit-variant decoding for `Validation`, matching the serde rename tokens
case-sensitively. -/
def parseValidation (tok : String) : Except DecodeErrorKind Validation :=
  if tok = "none" then Except.ok Validation.none
  else if tok = "md5" then Except.ok Validation.md5
  else if tok = "sha256" then Except.ok Validation.sha256
  else if tok = "pgp" then Except.ok Validation.pgp
  else Except.error (DecodeErrorKind.custom ("unknown variant " ++ tok))

/-- Decode the `validation: Vec<Validation>` field.  The struct declares no
`#[serde(default)]` here, so an absent key is a missing-field error. -/
def decodeValidationList (sects : List (String × List String)) :
    Except DecodeErrorKind (List Validation) :=
  match findSection sects "VALIDATION" with
  | Option.none => Except.error (DecodeErrorKind.custom "missing field validation")
  | some vs => vs.mapM parseValidation

/-- Unit-variant decoding for `Reason`, with serde rename tokens `"0"` and
`"1"`. -/
def parseReason (tok : String) : Except DecodeErrorKind Reason :=
  if tok = "0" then Except.ok Reason.Explicit
  else if tok = "1" then Except.ok Reason.Depend
  else Except.error (DecodeErrorKind.custom ("unknown variant " ++ tok))

/-- Decode the `reason: Option<Reason>` field. -/
def decodeOptReason (sects : List (String × List String)) :
    Except DecodeErrorKind (Option Reason) :=
  match findSection sects "REASON" with
  | Option.none => Except.ok Option.none
  | some [v] => (parseReason v).map some
  | some _ => Except.error (DecodeErrorKind.custom "invalid length for field reason")

/-- `de::from_str::<PackageDesc>`: split the text into lines, parse the
sections, then populate each declared field of `PackageDesc` per its serde
attributes (file keys are the upper-case forms of the serde field names). -/
def decodePackageDesc (text : String) : Except DecodeErrorKind PackageDesc :=
  match parseSections (stringLines text) with
  | Option.none => Except.error DecodeErrorKind.expectedKey
  | some sects => do
    let name ← decodeScalar sects "NAME" "name"
    let version ← decodeScalar sects "VERSION" "version"
    let base ← decodeOptScalar sects "BASE" "base"
    let description ← decodeScalar sects "DESC" "desc"
    let groups ← decodeDefaultList sects "GROUPS"
    let url ← decodeScalar sects "URL" "url"
    let license ← decodeOptScalar sects "LICENSE" "license"
    let arch ← decodeScalar sects "ARCH" "arch"
    let packager ← decodeScalar sects "PACKAGER" "packager"
    let reason ← decodeOptReason sects
    let validation ← decodeValidationList sects
    let size ← decodeU64 sects "SIZE" "size"
    let replaces ← decodeDefaultList sects "REPLACES"
    let depends ← decodeDefaultList sects "DEPENDS"
    let optional_depends ← decodeDefaultList sects "OPTDEPENDS"
    let conflicts ← decodeDefaultList sects "CONFLICTS"
    let provides ← decodeDefaultList sects "PROVIDES"
    Except.ok { name, version, base, description, groups, url, license, arch,
                packager, reason, validation, size, replaces, depends,
                optional_depends, conflicts, provides }

/-! ## The local package model (`Package` in `src/db/local/package.rs`) -/

/-- `Package` from `package.rs`: its filesystem path, its decoded
descriptor, and its manifest entry list. -/
structure Package where
  path : String
  desc : PackageDesc
  files : List Entry
deriving DecidableEq

/-- The error type of `Package::from_local` (`error::Error` of the crate is
not among the sources).  Modelled from the spec: `InvalidLocalPackage`
carries the expected package name plus a descriptive cause, and bare I/O
errors pass through a dedicated constructor (`?` on an `io::Error` without
added context). -/
inductive LoadError
  | ioError (e : IoError)
  | invalidLocalPackage (expected : String) (cause : String)
deriving DecidableEq

/-- `Package::from_local(path, name, version)`.  The two filesystem reads
are passed in explicitly: `descRead` is the result of
`fs::read_to_string(path.join("desc"))`, and `mtreeRead` the result of
opening, decompressing and parsing `path.join("mtree")` into entries.
Mirrors the source order: read `desc` (bare `?`), decode it (wrapped with
`InvalidLocalPackage(name)`), check name then version (each mismatch wrapped
with `InvalidLocalPackage(name)`), then read the mtree (bare `?`). -/
def Package.from_local (descRead : Except IoError String)
    (mtreeRead : Except IoError (List Entry))
    (path name version : String) : Except LoadError Package :=
  match descRead with
  | Except.error e => Except.error (LoadError.ioError e)
  | Except.ok desc_raw =>
    match decodePackageDesc desc_raw with
    | Except.error e =>
      Except.error (LoadError.invalidLocalPackage name e.message)
    | Except.ok desc =>
      if desc.name ≠ name then
        Except.error (LoadError.invalidLocalPackage name
          ("Name on system (\"" ++ name ++ "\") does not match name in package (\""
            ++ desc.name ++ "\")"))
      else if desc.version ≠ version then
        Except.error (LoadError.invalidLocalPackage name
          ("Version on system (\"" ++ version
            ++ "\") does not match version in package (\"" ++ desc.version ++ "\")"))
      else
        match mtreeRead with
        | Except.error e => Except.error (LoadError.ioError e)
        | Except.ok files => Except.ok { path := path, desc := desc, files := files }

/-- The accumulator loop of `Package::total_size`: skip the three reserved
metadata paths and every entry not classified as a regular file; a
qualifying entry lacking a size is skipped (logged warning in the source). -/
def totalSizeGo : List Entry → Nat → Nat
  | [], acc => acc
  | file :: rest, acc =>
    if file.path = "./.PKGINFO" ∨ file.path = "./.BUILDINFO"
        ∨ file.path = "./.INSTALL" ∨ ¬(file.fileType = some MtreeFileType.file) then
      totalSizeGo rest acc
    else
      match file.size with
      | some val => totalSizeGo rest (acc + val)
      | Option.none => totalSizeGo rest acc

/-- `Package::total_size`: the total disk space the package takes up; the
source's `io::Result` never actually carries an error. -/
def Package.total_size (p : Package) : Except IoError Nat :=
  Except.ok (totalSizeGo p.files 0)

/-- The findings the file-type check of `validate` pushes for one entry,
mirroring the source's `match` over declared and live classification. -/
def typeFindings : Option MtreeFileType → FileType → List ValidationError
  | some ty, live =>
    match FileType.fromMtree ty, live with
    | FileType.file, FileType.file => []
    | FileType.file, t => [ValidationError.WrongType FileType.file t]
    | FileType.directory, FileType.directory => []
    | FileType.directory, t => [ValidationError.WrongType FileType.directory t]
    | FileType.symbolicLink, FileType.symbolicLink => []
    | FileType.symbolicLink, t => [ValidationError.WrongType FileType.symbolicLink t]
    | _, _ => []
  | Option.none, _ => []

/-- The findings the size check of `validate` pushes for one entry. -/
def sizeFindings : Option Nat → Nat → List ValidationError
  | some size, len =>
    if len ≠ size then [ValidationError.WrongSize size len] else []
  | Option.none, _ => []

/-- The loop of `Package::validate`, with `stat` supplying the result of
`path.metadata()` for each manifest path.  A not-found stat pushes a single
`FileNotFound` finding for the entry and continues; any other stat error
aborts the whole run; a successful stat appends the type findings and then
the size findings for the entry. -/
def validateGo (stat : String → Except IoError Metadata) :
    List Entry → List ValidationError → Except IoError (List ValidationError)
  | [], errors => Except.ok errors
  | file :: rest, errors =>
    match stat file.path with
    | Except.error e =>
      if e.kind = IoErrorKind.notFound then
        validateGo stat rest (errors ++ [ValidationError.FileNotFound file.path])
      else
        Except.error e
    | Except.ok md =>
      validateGo stat rest
        ((errors ++ typeFindings file.fileType md.fileType)
          ++ sizeFindings file.size md.len)

/-- `Package::validate`: fold the loop over the package's manifest entries,
starting from an empty finding list. -/
def Package.validate (p : Package) (stat : String → Except IoError Metadata) :
    Except IoError (List ValidationError) :=
  validateGo stat p.files []

/-- The per-entry report of `validate`, used to state that a full run
accumulates the findings of every entry in order. -/
def entryContribution (stat : String → Except IoError Metadata) (file : Entry) :
    List ValidationError :=
  match stat file.path with
  | Except.error _ => [ValidationError.FileNotFound file.path]
  | Except.ok md => typeFindings file.fileType md.fileType ++ sizeFindings file.size md.len

/-- Concatenated per-entry reports over a list of entries. -/
def reportOf (stat : String → Except IoError Metadata) : List Entry → List ValidationError
  | [] => []
  | file :: rest => entryContribution stat file ++ reportOf stat rest

/-- The entries counted by `total_size` according to the specification's
words: classified as a regular file and not one of the three reserved
metadata paths. -/
def includedInTotalSize (file : Entry) : Bool :=
  file.fileType = some MtreeFileType.file ∧
    ¬(file.path = "./.PKGINFO" ∨ file.path = "./.BUILDINFO" ∨ file.path = "./.INSTALL")

/-- Whether a load result is an `InvalidLocalPackage`-wrapped error. -/
def isWrapped : Except LoadError Package → Bool
  | Except.error (LoadError.invalidLocalPackage _ _) => true
  | _ => false

/-- The value lines of the currently open section of `parseGo` (used to
state its invariant). -/
def stVals : Option (String × List String) → List String
  | Option.none => []
  | some kv => kv.2

/-! ## Concrete inputs for witness runs -/

/-- A complete well-formed descriptor text. -/
def descFull : String :=
  "%NAME%\nfoo\n\n%VERSION%\n1.0-1\n\n%DESC%\nd\n\n%URL%\nu\n\n%ARCH%\nany\n\n%PACKAGER%\np\n\n%VALIDATION%\nsha256\n\n%SIZE%\n10\n"

/-- Like `descFull` but with no `%VALIDATION%` section. -/
def descNoValidation : String :=
  "%NAME%\nfoo\n\n%VERSION%\n1.0-1\n\n%DESC%\nd\n\n%URL%\nu\n\n%ARCH%\nany\n\n%PACKAGER%\np\n\n%SIZE%\n10\n"

/-- Like `descFull` but declaring version `2.0`. -/
def descV2 : String :=
  "%NAME%\nfoo\n\n%VERSION%\n2.0\n\n%DESC%\nd\n\n%URL%\nu\n\n%ARCH%\nany\n\n%PACKAGER%\np\n\n%VALIDATION%\nsha256\n\n%SIZE%\n10\n"

/-- The record `descFull` decodes to. -/
def descFullRecord : PackageDesc :=
  { name := "foo", version := "1.0-1", base := Option.none, description := "d",
    groups := [], url := "u", license := Option.none, arch := "any",
    packager := "p", reason := Option.none, validation := [Validation.sha256],
    size := 10, replaces := [], depends := [], optional_depends := [],
    conflicts := [], provides := [] }

/-- The record `descV2` decodes to. -/
def descV2Record : PackageDesc := { descFullRecord with version := "2.0" }

/-- The parsed sections of `descFull`. -/
def sectsFull : List (String × List String) :=
  (parseSections (stringLines descFull)).getD []

/-- A package over `descFullRecord` with a chosen path and manifest. -/
def pkgOf (path : String) (files : List Entry) : Package :=
  { path := path, desc := descFullRecord, files := files }

/-- A manifest entry declaring a regular file of 50 bytes. -/
def entryLib50 : Entry :=
  { path := "./lib.so", fileType := some MtreeFileType.file, size := some 50 }

/-- Live metadata: a regular file of 60 bytes. -/
def mdFile60 : Metadata := { fileType := FileType.file, len := 60 }

/-- Live metadata: a directory of 0 bytes. -/
def mdDir0 : Metadata := { fileType := FileType.directory, len := 0 }

/-- A stat oracle finding a 60-byte regular file everywhere. -/
def statFile60 : String → Except IoError Metadata := fun _ => Except.ok mdFile60

/-- A stat oracle finding a directory everywhere. -/
def statDir0 : String → Except IoError Metadata := fun _ => Except.ok mdDir0

/-- A stat oracle failing with `NotFound` everywhere. -/
def statNotFound : String → Except IoError Metadata :=
  fun _ => Except.error { kind := IoErrorKind.notFound }

/-- A stat oracle failing with a non-`NotFound` I/O error everywhere. -/
def statDenied : String → Except IoError Metadata :=
  fun _ => Except.error { kind := IoErrorKind.otherKind 1 }

/-- A non-`NotFound` I/O error. -/
def ioOther5 : IoError := { kind := IoErrorKind.otherKind 5 }

/-- The package of the size-mismatch run: one 50-byte manifest entry. -/
def pkg7 : Package := pkgOf "p" [entryLib50]

/-- The fixed manifest of the specification's `total_size` example. -/
def examplePkg : Package :=
  pkgOf "p"
    [{ path := "./.PKGINFO", fileType := some MtreeFileType.file, size := some 10 },
     { path := "./lib.so", fileType := some MtreeFileType.file, size := some 100 },
     { path := "./bin", fileType := some MtreeFileType.directory, size := Option.none }]

end Alpm

deriving instance DecidableEq for Except

namespace Alpm

/-! ## Helper lemmas -/

/-- Bind in `Except` returns `ok` exactly when both stages do. -/
theorem except_bind_ok {ε α β : Type} (x : Except ε α) (f : α → Except ε β) (b : β) :
    (x >>= f) = Except.ok b ↔ ∃ a, x = Except.ok a ∧ f a = Except.ok b := by
  cases x <;> simp [Bind.bind, Except.bind]

/-- Invariant of the sectioniser: every value line of every parsed section
is a non-blank line (blank lines terminate sections, so they can never be
recorded as values). -/
theorem parseGo_values_nonempty :
    ∀ (ls : List String) (st : Option (String × List String))
      (sects : List (String × List String)),
      (∀ v ∈ stVals st, v ≠ "") →
      parseGo st ls = some sects →
      ∀ kv ∈ sects, ∀ v ∈ kv.2, v ≠ "" := by
  intro ls
  induction ls with
  | nil =>
    intro st sects hst h kv hkv v hv
    match st with
    | Option.none =>
      simp only [parseGo, Option.some.injEq] at h
      subst h
      simp at hkv
    | some (k, vals) =>
      simp only [parseGo] at h
      by_cases hv0 : vals = []
      · simp [hv0] at h
      · rw [if_neg hv0] at h
        have h2 := Option.some.inj h
        subst h2
        simp only [List.mem_singleton] at hkv
        subst hkv
        simp only [List.mem_reverse] at hv
        exact hst v hv
  | cons line rest ih =>
    intro st sects hst h kv hkv v hv
    match st with
    | Option.none =>
      simp only [parseGo] at h
      by_cases hline : line = ""
      · rw [if_pos hline] at h
        exact ih Option.none sects (by simp [stVals]) h kv hkv v hv
      · rw [if_neg hline] at h
        cases hk : keyOf line with
        | none => rw [hk] at h; simp at h
        | some k =>
          rw [hk] at h
          exact ih (some (k, [])) sects (by simp [stVals]) h kv hkv v hv
    | some (k, vals) =>
      simp only [parseGo] at h
      by_cases hline : line = ""
      · rw [if_pos hline] at h
        by_cases hv0 : vals = []
        · simp [hv0] at h
        · rw [if_neg hv0] at h
          cases hrec : parseGo Option.none rest with
          | none => rw [hrec] at h; simp at h
          | some sects0 =>
            rw [hrec] at h
            simp only [Option.map_some'] at h
            have h2 := Option.some.inj h
            subst h2
            rcases List.mem_cons.mp hkv with hkv | hkv
            · subst hkv
              simp only [List.mem_reverse] at hv
              exact hst v hv
            · exact ih Option.none sects0 (by simp [stVals]) hrec kv hkv v hv
      · rw [if_neg hline] at h
        refine ih (some (k, line :: vals)) sects ?_ h kv hkv v hv
        intro v2 hv2
        simp only [stVals] at hv2 hst ⊢
        rcases List.mem_cons.mp hv2 with h3 | h3
        · rw [h3]; exact hline
        · exact hst v2 h3

/-- A successful decode determines every field of the record through the
per-field decoders over the parsed sections. -/
theorem decodePackageDesc_ok (text : String) (desc : PackageDesc)
    (h : decodePackageDesc text = Except.ok desc) :
    ∃ sects, parseSections (stringLines text) = some sects
      ∧ decodeScalar sects "NAME" "name" = Except.ok desc.name
      ∧ decodeScalar sects "VERSION" "version" = Except.ok desc.version
      ∧ decodeOptScalar sects "BASE" "base" = Except.ok desc.base
      ∧ decodeDefaultList sects "GROUPS" = Except.ok desc.groups
      ∧ decodeOptScalar sects "LICENSE" "license" = Except.ok desc.license
      ∧ decodeOptReason sects = Except.ok desc.reason
      ∧ decodeValidationList sects = Except.ok desc.validation
      ∧ decodeDefaultList sects "REPLACES" = Except.ok desc.replaces
      ∧ decodeDefaultList sects "DEPENDS" = Except.ok desc.depends
      ∧ decodeDefaultList sects "OPTDEPENDS" = Except.ok desc.optional_depends
      ∧ decodeDefaultList sects "CONFLICTS" = Except.ok desc.conflicts
      ∧ decodeDefaultList sects "PROVIDES" = Except.ok desc.provides := by
  unfold decodePackageDesc at h
  cases hp : parseSections (stringLines text) with
  | none => rw [hp] at h; exact absurd h (by simp)
  | some sects =>
    rw [hp] at h
    simp only [except_bind_ok, Except.ok.injEq] at h
    obtain ⟨name, h1, version, h2, base, h3, description, h4, groups, h5, url, h6,
      license, h7, arch, h8, packager, h9, reason, h10, validation, h11, size, h12,
      replaces, h13, depends, h14, optional_depends, h15, conflicts, h16,
      provides, h17, hfin⟩ := h
    subst hfin
    exact ⟨sects, rfl, h1, h2, h3, h5, h7, h10, h11, h13, h14, h15, h16, h17⟩

/-- A successful required-scalar decode means the key was present with a
single value line. -/
theorem decodeScalar_ok (sects : List (String × List String)) (key field v : String)
    (h : decodeScalar sects key field = Except.ok v) :
    findSection sects key = some [v] := by
  unfold decodeScalar at h
  cases hf : findSection sects key with
  | none => rw [hf] at h; simp at h
  | some vs =>
    rw [hf] at h
    match vs with
    | [] => simp at h
    | [w] =>
      simp only [Except.ok.injEq] at h
      rw [h]
    | _ :: _ :: _ => simp at h

/-- A found section belongs to the parsed section list. -/
theorem findSection_mem (sects : List (String × List String)) (key : String)
    (vs : List String) (h : findSection sects key = some vs) :
    ∃ kv ∈ sects, kv.2 = vs := by
  unfold findSection at h
  cases hf : sects.find? (fun s => s.1 = key) with
  | none => rw [hf] at h; simp at h
  | some s =>
    rw [hf] at h
    simp only [Option.map_some'] at h
    exact ⟨s, List.mem_of_find?_eq_some hf, Option.some.inj h⟩

/-- Anatomy of a successful load: both reads succeeded, the decode
succeeded, and the decoded name and version equal the expected ones. -/
theorem from_local_ok (descRead : Except IoError String)
    (mtreeRead : Except IoError (List Entry)) (path name version : String)
    (pkg : Package)
    (h : Package.from_local descRead mtreeRead path name version = Except.ok pkg) :
    ∃ raw files, descRead = Except.ok raw ∧ mtreeRead = Except.ok files
      ∧ decodePackageDesc raw = Except.ok pkg.desc
      ∧ pkg.desc.name = name ∧ pkg.desc.version = version
      ∧ pkg.path = path ∧ pkg.files = files := by
  unfold Package.from_local at h
  split at h
  · exact absurd h (by simp)
  next raw =>
    split at h
    · exact absurd h (by simp)
    next desc hd =>
      split at h
      · exact absurd h (by simp)
      next hn =>
        split at h
        · exact absurd h (by simp)
        next hv =>
          split at h
          · exact absurd h (by simp)
          next files =>
            simp only [Except.ok.injEq] at h
            subst h
            exact ⟨raw, files, rfl, rfl, hd, not_not.mp hn, not_not.mp hv, rfl, rfl⟩

/-- `validateGo` with no aborting stat error accumulates the per-entry
reports of every entry, in order, after the incoming accumulator. -/
theorem validateGo_total (stat : String → Except IoError Metadata)
    (files : List Entry) (errors : List ValidationError)
    (h : ∀ file ∈ files, ∀ e, stat file.path = Except.error e →
      e.kind = IoErrorKind.notFound) :
    validateGo stat files errors = Except.ok (errors ++ reportOf stat files) := by
  induction files generalizing errors with
  | nil => simp [validateGo, reportOf]
  | cons file rest ih =>
    have hrest : ∀ f ∈ rest, ∀ e, stat f.path = Except.error e →
        e.kind = IoErrorKind.notFound :=
      fun f hf => h f (List.mem_cons_of_mem _ hf)
    cases hs : stat file.path with
    | error e =>
      have hk := h file (List.mem_cons_self _ _) e hs
      have step : validateGo stat (file :: rest) errors =
          validateGo stat rest (errors ++ [ValidationError.FileNotFound file.path]) := by
        simp [validateGo, hs, hk]
      rw [step, ih _ hrest]
      simp [reportOf, entryContribution, hs]
    | ok md =>
      have step : validateGo stat (file :: rest) errors =
          validateGo stat rest ((errors ++ typeFindings file.fileType md.fileType)
            ++ sizeFindings file.size md.len) := by
        simp [validateGo, hs]
      rw [step, ih _ hrest]
      simp [reportOf, entryContribution, hs, List.append_assoc]

/-- The accumulator loop of `total_size` computes the filtered sum. -/
theorem totalSizeGo_eq (files : List Entry) (acc : Nat) :
    totalSizeGo files acc =
      acc + ((files.filter includedInTotalSize).map (fun f => f.size.getD 0)).sum := by
  induction files generalizing acc with
  | nil => simp [totalSizeGo]
  | cons file rest ih =>
    by_cases hc : file.path = "./.PKGINFO" ∨ file.path = "./.BUILDINFO"
        ∨ file.path = "./.INSTALL" ∨ ¬(file.fileType = some MtreeFileType.file)
    · have hni : includedInTotalSize file = false := by
        simp only [includedInTotalSize, decide_eq_false_iff_not]
        tauto
      simp only [totalSizeGo, if_pos hc, List.filter_cons, hni]
      simp [ih]
    · have hi : includedInTotalSize file = true := by
        simp only [includedInTotalSize, decide_eq_true_eq]
        tauto
      push_neg at hc
      obtain ⟨h1, h2, h3, h4⟩ := hc
      simp only [totalSizeGo, List.filter_cons, hi]
      rw [if_neg (by tauto)]
      cases hsz : file.size with
      | none => simp [ih, hsz]
      | some val => simp [ih, hsz, Nat.add_assoc]

/-- The file-type comparison of `validate` in closed form: a finding is
pushed exactly for a declared `file`/`directory`/`symbolicLink` whose live
classification differs. -/
theorem typeFindings_eq (ty : MtreeFileType) (live : FileType) :
    typeFindings (some ty) live =
      (if (FileType.fromMtree ty = FileType.file
            ∨ FileType.fromMtree ty = FileType.directory
            ∨ FileType.fromMtree ty = FileType.symbolicLink)
          ∧ live ≠ FileType.fromMtree ty then
        [ValidationError.WrongType (FileType.fromMtree ty) live]
      else []) := by
  cases ty <;> cases live <;> decide

/-- Claim C10: `DbUsage.ALL` is the union of `SYNC`, `SEARCH`, `INSTALL` and
`UPGRADE`, contains each of the four flags under the bit-set membership
test, and `DbUsage.default` equals `DbUsage.ALL`. -/
theorem dbUsage_all_is_union_and_default :
    DbUsage.ALL =
      DbUsage.union (DbUsage.union (DbUsage.union DbUsage.SYNC DbUsage.SEARCH)
        DbUsage.INSTALL) DbUsage.UPGRADE
    ∧ DbUsage.contains DbUsage.ALL DbUsage.SYNC = true
    ∧ DbUsage.contains DbUsage.ALL DbUsage.SEARCH = true
    ∧ DbUsage.contains DbUsage.ALL DbUsage.INSTALL = true
    ∧ DbUsage.contains DbUsage.ALL DbUsage.UPGRADE = true
    ∧ DbUsage.default = DbUsage.ALL := by
  refine ⟨rfl, ?_, ?_, ?_, ?_, rfl⟩ <;> decide

/-- Claim C1, counterexample: a descriptor text with no `%VALIDATION%`
section does not decode successfully with an empty validation list — it
fails with a missing-field error, because `validation` is the one list
field of `PackageDesc` without `#[serde(default)]`. -/
theorem decode_missing_validation_fails :
    decodePackageDesc descNoValidation =
      Except.error (DecodeErrorKind.custom "missing field validation")
    ∧ findSection ((parseSections (stringLines descNoValidation)).getD [])
        "VALIDATION" = Option.none := by
  constructor <;> decide

/-- Claim C1, amended: when an absent optional list-valued key is one of
`GROUPS`, `REPLACES`, `DEPENDS`, `OPTDEPENDS`, `CONFLICTS` or `PROVIDES`
(the `#[serde(default)]` lists), decoding yields the empty list for the
corresponding field, and absent `BASE`/`LICENSE`/`REASON` yield `None`;
but `VALIDATION` is required: every successfully decoded text contains it. -/
theorem decode_absent_lists_default (text : String) (desc : PackageDesc)
    (sects : List (String × List String))
    (hp : parseSections (stringLines text) = some sects)
    (hd : decodePackageDesc text = Except.ok desc) :
    (findSection sects "GROUPS" = Option.none → desc.groups = [])
    ∧ (findSection sects "REPLACES" = Option.none → desc.replaces = [])
    ∧ (findSection sects "DEPENDS" = Option.none → desc.depends = [])
    ∧ (findSection sects "OPTDEPENDS" = Option.none → desc.optional_depends = [])
    ∧ (findSection sects "CONFLICTS" = Option.none → desc.conflicts = [])
    ∧ (findSection sects "PROVIDES" = Option.none → desc.provides = [])
    ∧ (findSection sects "BASE" = Option.none → desc.base = Option.none)
    ∧ (findSection sects "LICENSE" = Option.none → desc.license = Option.none)
    ∧ (findSection sects "REASON" = Option.none → desc.reason = Option.none)
    ∧ findSection sects "VALIDATION" ≠ Option.none := by
  obtain ⟨sects2, hp2, hname, hversion, hbase, hgroups, hlicense, hreason,
    hvalidation, hreplaces, hdepends, hopt, hconflicts, hprovides⟩ :=
    decodePackageDesc_ok text desc hd
  rw [hp] at hp2
  obtain rfl : sects = sects2 := Option.some.inj hp2
  refine ⟨?_, ?_, ?_, ?_, ?_, ?_, ?_, ?_, ?_, ?_⟩
  · intro habs
    unfold decodeDefaultList at hgroups
    rw [habs] at hgroups
    exact (Except.ok.inj hgroups).symm
  · intro habs
    unfold decodeDefaultList at hreplaces
    rw [habs] at hreplaces
    exact (Except.ok.inj hreplaces).symm
  · intro habs
    unfold decodeDefaultList at hdepends
    rw [habs] at hdepends
    exact (Except.ok.inj hdepends).symm
  · intro habs
    unfold decodeDefaultList at hopt
    rw [habs] at hopt
    exact (Except.ok.inj hopt).symm
  · intro habs
    unfold decodeDefaultList at hconflicts
    rw [habs] at hconflicts
    exact (Except.ok.inj hconflicts).symm
  · intro habs
    unfold decodeDefaultList at hprovides
    rw [habs] at hprovides
    exact (Except.ok.inj hprovides).symm
  · intro habs
    unfold decodeOptScalar at hbase
    rw [habs] at hbase
    exact (Except.ok.inj hbase).symm
  · intro habs
    unfold decodeOptScalar at hlicense
    rw [habs] at hlicense
    exact (Except.ok.inj hlicense).symm
  · intro habs
    unfold decodeOptReason at hreason
    rw [habs] at hreason
    exact (Except.ok.inj hreason).symm
  · intro habs
    unfold decodeValidationList at hvalidation
    rw [habs] at hvalidation
    exact absurd hvalidation (by simp)

/-- Witness for the amended C1: `descFull` lacks all six defaulted list
keys and the three optional scalar keys but carries `%VALIDATION%`. -/
theorem decode_absent_lists_default_witness :
    (findSection sectsFull "GROUPS" = Option.none → descFullRecord.groups = [])
    ∧ (findSection sectsFull "REPLACES" = Option.none → descFullRecord.replaces = [])
    ∧ (findSection sectsFull "DEPENDS" = Option.none → descFullRecord.depends = [])
    ∧ (findSection sectsFull "OPTDEPENDS" = Option.none →
        descFullRecord.optional_depends = [])
    ∧ (findSection sectsFull "CONFLICTS" = Option.none → descFullRecord.conflicts = [])
    ∧ (findSection sectsFull "PROVIDES" = Option.none → descFullRecord.provides = [])
    ∧ (findSection sectsFull "BASE" = Option.none → descFullRecord.base = Option.none)
    ∧ (findSection sectsFull "LICENSE" = Option.none →
        descFullRecord.license = Option.none)
    ∧ (findSection sectsFull "REASON" = Option.none → descFullRecord.reason = Option.none)
    ∧ findSection sectsFull "VALIDATION" ≠ Option.none :=
  decode_absent_lists_default descFull descFullRecord sectsFull (by decide) (by decide)

/-- Claim C2: every package returned by `from_local` has a non-empty name
and a non-empty version — the decoded values are value lines of the
descriptor text, and a blank line can never be a value line. -/
theorem from_local_name_version_nonempty (descRead : Except IoError String)
    (mtreeRead : Except IoError (List Entry)) (path name version : String)
    (pkg : Package)
    (h : Package.from_local descRead mtreeRead path name version = Except.ok pkg) :
    pkg.desc.name ≠ "" ∧ pkg.desc.version ≠ "" := by
  obtain ⟨raw, files, hdr, hmr, hd, hn, hv, hp2, hf⟩ :=
    from_local_ok descRead mtreeRead path name version pkg h
  obtain ⟨sects, hp, hname, hversion, hrest⟩ := decodePackageDesc_ok raw pkg.desc hd
  unfold parseSections at hp
  have hinv := parseGo_values_nonempty (stringLines raw) Option.none sects
    (by simp [stVals]) hp
  have hfn := decodeScalar_ok sects "NAME" "name" pkg.desc.name hname
  have hfv := decodeScalar_ok sects "VERSION" "version" pkg.desc.version hversion
  obtain ⟨kvn, hmemn, hvn⟩ := findSection_mem sects "NAME" [pkg.desc.name] hfn
  obtain ⟨kvv, hmemv, hvv⟩ := findSection_mem sects "VERSION" [pkg.desc.version] hfv
  constructor
  · exact hinv kvn hmemn pkg.desc.name (by rw [hvn]; simp)
  · exact hinv kvv hmemv pkg.desc.version (by rw [hvv]; simp)

/-- Witness for C2: loading `descFull` against the expected name `foo` and
version `1.0-1` returns a package with non-empty name and version. -/
theorem from_local_name_version_nonempty_witness :
    (pkgOf "p" []).desc.name ≠ "" ∧ (pkgOf "p" []).desc.version ≠ "" :=
  from_local_name_version_nonempty (Except.ok descFull) (Except.ok []) "p" "foo"
    "1.0-1" (pkgOf "p" []) (by decide)

/-- Claim C3, counterexample: an I/O error from reading the `desc` file is
returned bare (`?` with no context), not wrapped as `InvalidLocalPackage`. -/
theorem from_local_desc_io_error_bare :
    Package.from_local (Except.error ioOther5) (Except.ok []) "p" "foo" "1.0" =
      Except.error (LoadError.ioError ioOther5)
    ∧ isWrapped (Package.from_local (Except.error ioOther5) (Except.ok [])
        "p" "foo" "1.0") = false := by
  constructor <;> decide

/-- Claim C3, amended: decode failures are wrapped with
`InvalidLocalPackage(expected_name)`, while the I/O error from reading the
`desc` file and the I/O error from reading the `mtree` file both propagate
bare. -/
theorem from_local_error_wrapping (descRead : Except IoError String)
    (mtreeRead : Except IoError (List Entry)) (path name version : String) :
    (∀ e, descRead = Except.error e →
      Package.from_local descRead mtreeRead path name version =
        Except.error (LoadError.ioError e))
    ∧ (∀ raw ek, descRead = Except.ok raw → decodePackageDesc raw = Except.error ek →
      Package.from_local descRead mtreeRead path name version =
        Except.error (LoadError.invalidLocalPackage name ek.message))
    ∧ (∀ raw desc e, descRead = Except.ok raw → decodePackageDesc raw = Except.ok desc →
        desc.name = name → desc.version = version → mtreeRead = Except.error e →
      Package.from_local descRead mtreeRead path name version =
        Except.error (LoadError.ioError e)) := by
  refine ⟨?_, ?_, ?_⟩
  · intro e he
    subst he
    rfl
  · intro raw ek h1 h2
    subst h1
    simp [Package.from_local, h2]
  · intro raw desc e h1 h2 h3 h4 h5
    subst h1
    subst h5
    simp [Package.from_local, h2, h3, h4]

/-- Witness for the amended C3: a bare desc-read I/O error passes through
unwrapped, and a decode failure (empty text, missing `name`) is wrapped. -/
theorem from_local_error_wrapping_witness :
    Package.from_local (Except.error ioOther5) (Except.ok []) "p" "foo" "1.0" =
      Except.error (LoadError.ioError ioOther5)
    ∧ Package.from_local (Except.ok "") (Except.ok []) "p" "foo" "1.0" =
      Except.error (LoadError.invalidLocalPackage "foo"
        (DecodeErrorKind.custom "missing field name").message) :=
  ⟨(from_local_error_wrapping (Except.error ioOther5) (Except.ok []) "p" "foo"
      "1.0").1 ioOther5 rfl,
   (from_local_error_wrapping (Except.ok "") (Except.ok []) "p" "foo" "1.0").2.1
      "" (DecodeErrorKind.custom "missing field name") rfl (by decide)⟩

/-- Claim C4: a successfully decoded descriptor whose name or version
differs from the expected one makes `from_local` fail with
`InvalidLocalPackage(expected_name)`; no package is returned. -/
theorem from_local_mismatch_invalid (descRead : Except IoError String)
    (mtreeRead : Except IoError (List Entry)) (path name version : String)
    (raw : String) (desc : PackageDesc)
    (h1 : descRead = Except.ok raw) (h2 : decodePackageDesc raw = Except.ok desc)
    (h3 : desc.name ≠ name ∨ desc.version ≠ version) :
    ∃ cause, Package.from_local descRead mtreeRead path name version =
      Except.error (LoadError.invalidLocalPackage name cause) := by
  subst h1
  by_cases hn : desc.name ≠ name
  · refine ⟨"Name on system (\"" ++ name ++ "\") does not match name in package (\""
      ++ desc.name ++ "\")", ?_⟩
    simp [Package.from_local, h2, hn]
  · have hv : desc.version ≠ version := by
      rcases h3 with h | h
      · exact absurd h hn
      · exact h
    refine ⟨"Version on system (\"" ++ version
      ++ "\") does not match version in package (\"" ++ desc.version ++ "\")", ?_⟩
    simp [Package.from_local, h2, hv, not_not.mp hn]

/-- Witness for C4: a `desc` declaring version `2.0` when the caller
expects `1.0` fails with the local-package-invalid error. -/
theorem from_local_mismatch_invalid_witness :
    ∃ cause, Package.from_local (Except.ok descV2) (Except.ok []) "p" "foo" "1.0" =
      Except.error (LoadError.invalidLocalPackage "foo" cause) :=
  from_local_mismatch_invalid (Except.ok descV2) (Except.ok []) "p" "foo" "1.0"
    descV2 descV2Record rfl (by decide) (Or.inr (by decide))

/-- Claim C5: a not-found stat yields exactly one `FileNotFound` finding
for the entry and validation continues with the rest; any other stat error
aborts `validate` and is returned as the I/O failure. -/
theorem validate_stat_error_policy (stat : String → Except IoError Metadata)
    (file : Entry) (rest : List Entry) (errors : List ValidationError) :
    (∀ e, stat file.path = Except.error e → e.kind = IoErrorKind.notFound →
      validateGo stat (file :: rest) errors =
        validateGo stat rest (errors ++ [ValidationError.FileNotFound file.path]))
    ∧ (∀ e, stat file.path = Except.error e → e.kind ≠ IoErrorKind.notFound →
      validateGo stat (file :: rest) errors = Except.error e) := by
  constructor
  · intro e he hk
    simp [validateGo, he, hk]
  · intro e he hk
    simp [validateGo, he, hk]

/-- Witness for C5: a not-found stat folds into a single finding and the
loop continues; a denied stat aborts with that error. -/
theorem validate_stat_error_policy_witness :
    validateGo statNotFound [entryLib50] [] =
      validateGo statNotFound [] ([] ++ [ValidationError.FileNotFound entryLib50.path])
    ∧ validateGo statDenied [entryLib50] [] =
      Except.error { kind := IoErrorKind.otherKind 1 } :=
  ⟨(validate_stat_error_policy statNotFound entryLib50 [] []).1
      { kind := IoErrorKind.notFound } rfl rfl,
   (validate_stat_error_policy statDenied entryLib50 [] []).2
      { kind := IoErrorKind.otherKind 1 } rfl (by decide)⟩

/-- Claim C6: with a declared classification, a `WrongType{expected,
actual}` finding is recorded exactly when the declared classification is
`File`, `Directory` or `SymbolicLink` and the live one differs; a declared
`Other` is never compared and never yields a finding. -/
theorem validate_wrong_type_policy (stat : String → Except IoError Metadata)
    (file : Entry) (rest : List Entry) (errors : List ValidationError)
    (md : Metadata) (ty : MtreeFileType)
    (hstat : stat file.path = Except.ok md) (hty : file.fileType = some ty) :
    validateGo stat (file :: rest) errors =
      validateGo stat rest ((errors ++ typeFindings (some ty) md.fileType)
        ++ sizeFindings file.size md.len)
    ∧ typeFindings (some ty) md.fileType =
      (if (FileType.fromMtree ty = FileType.file
            ∨ FileType.fromMtree ty = FileType.directory
            ∨ FileType.fromMtree ty = FileType.symbolicLink)
          ∧ md.fileType ≠ FileType.fromMtree ty then
        [ValidationError.WrongType (FileType.fromMtree ty) md.fileType]
      else [])
    ∧ (FileType.fromMtree ty = FileType.other →
        typeFindings (some ty) md.fileType = []) := by
  refine ⟨by simp [validateGo, hstat, hty], typeFindings_eq ty md.fileType, ?_⟩
  intro hother
  rw [typeFindings_eq ty md.fileType, hother]
  simp

/-- Witness for C6: an entry declared a regular file found live as a
directory records `WrongType{file, directory}`. -/
theorem validate_wrong_type_policy_witness :
    validateGo statDir0 [entryLib50] [] =
      validateGo statDir0 [] (([] ++ typeFindings (some MtreeFileType.file)
        mdDir0.fileType) ++ sizeFindings entryLib50.size mdDir0.len)
    ∧ typeFindings (some MtreeFileType.file) mdDir0.fileType =
      (if (FileType.fromMtree MtreeFileType.file = FileType.file
            ∨ FileType.fromMtree MtreeFileType.file = FileType.directory
            ∨ FileType.fromMtree MtreeFileType.file = FileType.symbolicLink)
          ∧ mdDir0.fileType ≠ FileType.fromMtree MtreeFileType.file then
        [ValidationError.WrongType (FileType.fromMtree MtreeFileType.file)
          mdDir0.fileType]
      else [])
    ∧ (FileType.fromMtree MtreeFileType.file = FileType.other →
        typeFindings (some MtreeFileType.file) mdDir0.fileType = []) :=
  validate_wrong_type_policy statDir0 entryLib50 [] [] mdDir0 MtreeFileType.file
    rfl rfl

/-- Claim C7: a declared size yields exactly one `WrongSize{expected:
declared, actual: live}` finding when the live length differs and none when
they agree, and a run with no aborting stat error returns the full
accumulated list over all entries. -/
theorem validate_wrong_size_and_full_list (stat : String → Except IoError Metadata)
    (p : Package)
    (h : ∀ file ∈ p.files, ∀ e, stat file.path = Except.error e →
      e.kind = IoErrorKind.notFound) :
    Package.validate p stat = Except.ok (reportOf stat p.files)
    ∧ (∀ size len : Nat, len ≠ size →
        sizeFindings (some size) len = [ValidationError.WrongSize size len])
    ∧ (∀ size len : Nat, len = size → sizeFindings (some size) len = []) := by
  refine ⟨?_, ?_, ?_⟩
  · unfold Package.validate
    simpa using validateGo_total stat p.files [] h
  · intro size len hne
    simp [sizeFindings, hne]
  · intro size len he
    simp [sizeFindings, he]

/-- Witness for C7: manifest size 50 against live size 60 yields exactly
one `WrongSize{expected: 50, actual: 60}` finding. -/
theorem validate_wrong_size_witness :
    Package.validate pkg7 statFile60 = Except.ok [ValidationError.WrongSize 50 60] := by
  have h := validate_wrong_size_and_full_list statFile60 pkg7
    (by intro f hf e he; simp [statFile60] at he)
  exact h.1.trans (by decide)

/-- Claim C8: `total_size` sums the declared sizes of exactly the
regular-file entries outside the three reserved metadata paths, a
qualifying entry lacking a size contributing zero, and on the spec's fixed
example manifest it returns 100. -/
theorem total_size_filtered_sum (p : Package) :
    Package.total_size p =
      Except.ok (((p.files.filter includedInTotalSize).map
        (fun f => f.size.getD 0)).sum)
    ∧ Package.total_size examplePkg = Except.ok 100 := by
  constructor
  · unfold Package.total_size
    rw [totalSizeGo_eq]
    simp
  · decide

/-- Claim C9: `validate` never reads the package's `path` field — two
packages agreeing on their manifest entries validate identically against
the same stat oracle. -/
theorem validate_ignores_package_path (p1 p2 : Package)
    (stat : String → Except IoError Metadata) (h : p1.files = p2.files) :
    Package.validate p1 stat = Package.validate p2 stat := by
  unfold Package.validate
  rw [h]

/-- Witness for C9: packages at `/a` and `/b` with the same manifest
validate identically. -/
theorem validate_ignores_package_path_witness :
    Package.validate (pkgOf "/a" [entryLib50]) statNotFound =
      Package.validate (pkgOf "/b" [entryLib50]) statNotFound :=
  validate_ignores_package_path (pkgOf "/a" [entryLib50]) (pkgOf "/b" [entryLib50])
    statNotFound rfl

end Alpm
